/-
Verification of the map overlay engine of rof2client-dinput8.

Shallow embedding of the overlay tracking/rendering core found in
src/mods/map (map.h, map_object.h, map_object.cpp, map_api.cpp,
map_mod.cpp).  Each definition below is translated from the named C++
function; doc comments give the source location.  Machine pointers are
modelled by an abstract pointer type, the intrusive chains by lists of
node identifiers, and the mutable globals by explicit state records.
-/

import Mathlib

namespace Rof2Map

/-! ## Filter registry (map.h lines 22-63, 90-119, 170-194; map_object.cpp lines 35-151)

The MapFilter enum is modelled by `Option Nat`: `none` is MapFilter::Invalid
(-1 in the source) and `some i` is the filter with enum value `i`
(0 = All .. 36 = PullRadius).  The shipped MapFilterOptions table fixes each
option`s RequiresOption field; the mutable Enabled bits are a parameter
`en : Nat → Bool`. -/

/-- The RequiresOption column of the shipped MapFilterOptions table
(map_object.cpp lines 39-151), indexed by MapFilter enum value:
entry i is the filter that option i requires (`none` = Invalid). -/
def requiresTable : List (Option Nat) :=
  [ none,     -- 0  All        requires Invalid
    some 0,   -- 1  PC         requires All
    some 1,   -- 2  PCConColor requires PC
    some 1,   -- 3  Group      requires PC
    some 0,   -- 4  Mount      requires All
    some 0,   -- 5  NPC        requires All
    some 5,   -- 6  NPCConColor requires NPC
    some 0,   -- 7  Untargetable
    some 0,   -- 8  Pet
    some 0,   -- 9  Corpse
    some 0,   -- 10 Chest
    some 0,   -- 11 Trigger
    some 0,   -- 12 Trap
    some 0,   -- 13 Timer
    some 0,   -- 14 Ground
    some 0,   -- 15 Target     requires All
    some 15,  -- 16 TargetLine requires Target
    some 15,  -- 17 TargetRadius requires Target
    some 15,  -- 18 TargetMelee  requires Target
    some 0,   -- 19 Vector
    some 0,   -- 20 Custom
    some 0,   -- 21 CastRadius
    some 0,   -- 22 NormalLabels
    some 0,   -- 23 ContextMenu
    some 0,   -- 24 SpellRadius
    some 0,   -- 25 Aura
    some 0,   -- 26 Object
    some 0,   -- 27 Banner
    some 0,   -- 28 Campfire
    some 9,   -- 29 PCCorpse  requires Corpse
    some 9,   -- 30 NPCCorpse requires Corpse
    some 0,   -- 31 Mercenary
    some 5,   -- 32 Named     requires NPC
    some 15,  -- 33 TargetPath requires Target
    some 0,   -- 34 Marker
    some 0,   -- 35 CampRadius
    some 0 ]  -- 36 PullRadius

/-- RequiresOption of filter id `i`; ids outside the 37-entry table behave as
the sentinel MapFilterInvalidOption whose RequiresOption is Invalid
(GetMapFilterOption, map.h lines 170-176). -/
def requiresNat (i : Nat) : Option Nat :=
  (requiresTable.getD i none)

/-- Enabled bit of filter id `i`: the table bit for a real id, and the
MapFilterInvalidOption sentinel (Enabled = false) for an out-of-range id
(GetMapFilterOption, map.h lines 170-176). -/
def enabledOf (en : Nat → Bool) (i : Nat) : Bool :=
  if i < 37 then en i else false

/-- Fuel-indexed unfolding of the recursive IsOptionEnabled (map.h lines
178-185).  The source recursion terminates because every RequiresOption
reference in the shipped table has a strictly smaller enum value; the
adequacy of fuel 38 is proved below (isEnabledFuel_fuel_succ and
IsOptionEnabled_unfold), which is the formal content of that termination
argument. -/
def isEnabledFuel (en : Nat → Bool) : Nat → Option Nat → Bool
  | _, none => true
  | 0, some _ => false
  | fuel + 1, some i => enabledOf en i && isEnabledFuel en fuel (requiresNat i)

/-- IsOptionEnabled (map.h lines 178-185): Invalid is always enabled;
otherwise the option`s Enabled bit AND (recursively) its requirement. -/
def IsOptionEnabled (en : Nat → Bool) (o : Option Nat) : Bool :=
  isEnabledFuel en 38 o

/-- Recursion depth bound for a MapFilter value. -/
def mfMeasure : Option Nat → Nat
  | none => 0
  | some i => i + 1

/-- Iterated RequiresOption chain: `reqIter n o` follows the requires
reference n times starting from filter o. -/
def reqIter : Nat → Option Nat → Option Nat
  | 0, o => o
  | _ + 1, none => none
  | n + 1, some i => reqIter n (requiresNat i)

/-- The requires chain from a child reaches a parent after one or more
steps through the shipped table. -/
inductive ReqReaches : Nat → Nat → Prop where
  | direct {c p : Nat} : requiresNat c = some p → ReqReaches c p
  | step {c q p : Nat} : requiresNat c = some q → ReqReaches q p → ReqReaches c p

/-! ## Render list splice manager and clear (map_api.cpp lines 85-151, 527-578)

Pointer values are abstract: `MPtr.host n` is a node owned by the host
renderer, `MPtr.eng n` a node owned by the engine, `MPtr.null` the null
pointer.  The engine chains gpLabelList / gpLineList are lists of engine
node ids (head first); `engLabelTailNext` models gpLabelListTail->pNext
(null whenever the chain is empty, since InitLabel/InitLine keep the tail
link null outside the spliced window).  The host window is assumed present
(the source early-returns when the captured MapViewMap pointer is null). -/

inductive MPtr where
  | null : MPtr
  | host : Nat → MPtr
  | eng : Nat → MPtr
deriving DecidableEq, Repr

/-- The engine-side and splice-related global state of map_object.cpp and
map_api.cpp: the object index maps (SpawnMap / GroundItemMap as handle-id
to object-id association lists), the active object list, the engine label
and line chains, pTargetLine, the six static radius circles (allocation
status only), pLastTarget, the host list heads (from the MapViewMap), the
saved pActualLabelList, the two attached flags, and the current value of
IsOptionEnabled(MapFilter::NormalLabels). -/
structure MapEngineState where
  active : List Nat
  spawnMap : List (Nat × Nat)
  groundMap : List (Nat × Nat)
  engLabels : List Nat
  engLabelTailNext : MPtr
  engLines : List Nat
  engLineTailNext : MPtr
  targetLine : Option Nat
  circlesAllocated : List Bool
  lastTarget : Option Nat
  hostLabelHead : MPtr
  hostLineHead : MPtr
  pActualLabelList : MPtr
  labelsAttached : Bool
  linesAttached : Bool
  normalLabels : Bool
deriving DecidableEq, Repr

/-- gpLabelList as a pointer value: null iff the engine label chain is empty. -/
def engLabelHeadPtr (s : MapEngineState) : MPtr :=
  match s.engLabels with
  | [] => MPtr.null
  | i :: _ => MPtr.eng i

/-- gpLineList as a pointer value: null iff the engine line chain is empty. -/
def engLineHeadPtr (s : MapEngineState) : MPtr :=
  match s.engLines with
  | [] => MPtr.null
  | i :: _ => MPtr.eng i

/-- Label half of MapAttach (map_api.cpp lines 535-546): if gpLabelList is
non-null, save the host head in pActualLabelList, set s_labelsAttached,
link the chain tail to the host head only when NormalLabels is enabled,
and overwrite the host head with gpLabelList. -/
def MapAttachLabels (s : MapEngineState) : MapEngineState :=
  if s.engLabels.isEmpty then s
  else
    { s with
      pActualLabelList := s.hostLabelHead
      labelsAttached := true
      engLabelTailNext := if s.normalLabels then s.hostLabelHead else s.engLabelTailNext
      hostLabelHead := engLabelHeadPtr s }

/-- Line half of MapAttach (map_api.cpp lines 548-553): unconditional splice
of the line chain when gpLineList is non-null. -/
def MapAttachLines (s : MapEngineState) : MapEngineState :=
  if s.engLines.isEmpty then s
  else
    { s with
      linesAttached := true
      engLineTailNext := s.hostLineHead
      hostLineHead := engLineHeadPtr s }

/-- MapAttach (map_api.cpp lines 527-554), labels then lines. -/
def MapAttach (s : MapEngineState) : MapEngineState :=
  MapAttachLines (MapAttachLabels s)

/-- Label half of MapDetach (map_api.cpp lines 565-570): restore the host
head from pActualLabelList and null the tail link, only when
s_labelsAttached is set and gpLabelList is non-null. -/
def MapDetachLabels (s : MapEngineState) : MapEngineState :=
  if s.labelsAttached && !s.engLabels.isEmpty then
    { s with
      hostLabelHead := s.pActualLabelList
      engLabelTailNext := MPtr.null
      labelsAttached := false }
  else s

/-- Line half of MapDetach (map_api.cpp lines 572-577): the host line head
is restored from gpLineListTail->pNext (where MapAttach stored it). -/
def MapDetachLines (s : MapEngineState) : MapEngineState :=
  if s.linesAttached && !s.engLines.isEmpty then
    { s with
      hostLineHead := s.engLineTailNext
      engLineTailNext := MPtr.null
      linesAttached := false }
  else s

/-- MapDetach (map_api.cpp lines 556-578), labels then lines. -/
def MapDetach (s : MapEngineState) : MapEngineState :=
  MapDetachLines (MapDetachLabels s)

/-- MapClear (map_api.cpp lines 132-151).  MapObjects_Clear (map_object.cpp
lines 1179-1188) empties both dedupe maps and destroys every active object,
which deletes every object-owned label and line; MapClear then deletes
pTargetLine, resets pLastTarget and clears the six radius circles, so both
engine chains end empty.  Note what is NOT here: MapClear never calls
MapDetach and never writes the host heads, pActualLabelList or the two
attached flags.  (Mid-splice the C++ node deletion additionally corrupts
neighbouring host nodes; the model does not represent that corruption, but
the fields the theorems observe - host heads, flags, saved head - are
exactly the fields MapClear never writes.) -/
def MapClear (s : MapEngineState) : MapEngineState :=
  { s with
    active := []
    spawnMap := []
    groundMap := []
    engLabels := []
    engLabelTailNext := MPtr.null
    engLines := []
    engLineTailNext := MPtr.null
    targetLine := none
    circlesAllocated := List.replicate 6 false
    lastTarget := none }

/-- The process-start state: nothing generated, nothing attached. -/
def initEngineState : MapEngineState :=
  { active := []
    spawnMap := []
    groundMap := []
    engLabels := []
    engLabelTailNext := MPtr.null
    engLines := []
    engLineTailNext := MPtr.null
    targetLine := none
    circlesAllocated := List.replicate 6 false
    lastTarget := none
    hostLabelHead := MPtr.null
    hostLineHead := MPtr.null
    pActualLabelList := MPtr.null
    labelsAttached := false
    linesAttached := false
    normalLabels := true }

/-- A mid-splice scenario for claim C3: one live spawn object whose label is
the engine chain head, host label head `host 7`, host line head `host 8`,
not yet attached.  Applying MapAttach to it yields the mid-splice state. -/
def c3PreSplice : MapEngineState :=
  { active := [1]
    spawnMap := [(5, 1)]
    groundMap := []
    engLabels := [0]
    engLabelTailNext := MPtr.null
    engLines := []
    engLineTailNext := MPtr.null
    targetLine := none
    circlesAllocated := List.replicate 6 false
    lastTarget := none
    hostLabelHead := MPtr.host 7
    hostLineHead := MPtr.host 8
    pActualLabelList := MPtr.null
    labelsAttached := false
    linesAttached := false
    normalLabels := true }

/-- A concrete state for the claim C2 witness: one engine label node, one
engine line node, distinct host heads, NormalLabels enabled. -/
def c2Example : MapEngineState :=
  { active := [1]
    spawnMap := [(5, 1)]
    groundMap := []
    engLabels := [0]
    engLabelTailNext := MPtr.null
    engLines := [2]
    engLineTailNext := MPtr.null
    targetLine := none
    circlesAllocated := List.replicate 6 false
    lastTarget := none
    hostLabelHead := MPtr.host 7
    hostLineHead := MPtr.host 8
    pActualLabelList := MPtr.null
    labelsAttached := false
    linesAttached := false
    normalLabels := true }

/-- A concrete detached state for the claim C4 witness. -/
def c4Example : MapEngineState :=
  { active := [1]
    spawnMap := [(5, 1)]
    groundMap := []
    engLabels := [0]
    engLabelTailNext := MPtr.null
    engLines := [2]
    engLineTailNext := MPtr.null
    targetLine := none
    circlesAllocated := List.replicate 6 false
    lastTarget := none
    hostLabelHead := MPtr.host 7
    hostLineHead := MPtr.host 8
    pActualLabelList := MPtr.host 9
    labelsAttached := false
    linesAttached := false
    normalLabels := false }

/-! ## Marker subsystem (map_object.cpp lines 456-541)

Modelled per object at the allocation level: the MarkerType field m_marker
and the number of lines in m_markerLines.  The Make*Marker routines only
rewrite coordinates and colors of the already-allocated lines, so at this
level UpdateMarker is the identity. -/

inductive MarkerType where
  | none
  | triangle
  | square
  | diamond
  | ring
  | unknown
deriving DecidableEq, Repr

/-- GetNumMarkerSides (map_object.cpp lines 463-473). -/
def GetNumMarkerSides : MarkerType → Nat
  | MarkerType.triangle => 3
  | MarkerType.square => 4
  | MarkerType.diamond => 4
  | MarkerType.ring => 8
  | _ => 0

/-- The marker-related fields of one MapObject: m_marker and the size of
m_markerLines. -/
structure MarkerState where
  marker : MarkerType
  markerLines : Nat
deriving DecidableEq, Repr

/-- MapObject::GenerateMarker (map_object.cpp lines 475-508): a no-op when
the Marker filter is disabled; otherwise m_marker is set from the option
(even when that is None, in which case it returns with the lines
untouched), and for a real shape the line vector is cleared and refilled
with GetNumMarkerSides fresh lines, then UpdateMarker positions them. -/
def GenerateMarker (markerFilterEnabled : Bool) (optionMarker : MarkerType)
    (s : MarkerState) : MarkerState :=
  if !markerFilterEnabled then s
  else
    let s1 : MarkerState := { s with marker := optionMarker }
    if optionMarker = MarkerType.none then s1
    else { s1 with markerLines := GetNumMarkerSides optionMarker }

/-- MapObject::RemoveMarker (map_object.cpp lines 510-520): early-out when
m_marker is already None, otherwise delete every marker line, clear the
vector and reset m_marker. -/
def RemoveMarker (s : MarkerState) : MarkerState :=
  if s.marker = MarkerType.none then s
  else { marker := MarkerType.none, markerLines := 0 }

/-- MapObject::UpdateMarker (map_object.cpp lines 522-541): dispatches to a
Make*Marker routine that rewrites coordinates of the existing lines;
allocation counts are unchanged. -/
def UpdateMarker (s : MarkerState) : MarkerState := s

/-- The marker-relevant events after PostInit: each MapObject::Update call
either refreshes or removes the marker depending on the Marker filter
(map_object.cpp lines 331-334), and destruction/regeneration calls
RemoveMarker directly. -/
inductive MarkerOp where
  | update (markerFilterEnabled : Bool)
  | remove
deriving DecidableEq, Repr

def markerStep (s : MarkerState) : MarkerOp → MarkerState
  | MarkerOp.update e => if e then UpdateMarker s else RemoveMarker s
  | MarkerOp.remove => RemoveMarker s

/-- Marker state of one object over its lifetime: freshly constructed
(m_marker = None, no lines), then GenerateMarker once from PostInit
(map_object.cpp lines 285-289), then any sequence of update/remove events. -/
def runMarker (markerFilterEnabled : Bool) (shape : MarkerType)
    (ops : List MarkerOp) : MarkerState :=
  ops.foldl markerStep
    (GenerateMarker markerFilterEnabled shape
      { marker := MarkerType.none, markerLines := 0 })

/-! ## MapCircle (map_object.h lines 151-166; map_object.cpp lines 1194-1240)

Segment geometry is recorded by the two angle arguments (in degrees) the
source feeds to cos/sin for the segment start and end points; the
coordinates are fixed trigonometric images of those angles. -/

/-- One circle segment: the degree arguments of its start and end points
(MapCircle::UpdateCircle, map_object.cpp lines 1230-1236). -/
structure CircleSeg where
  startAngle : Nat
  endAngle : Nat
deriving DecidableEq, Repr

/-- The segments produced by the UpdateCircle loop: `n` more iterations
starting at accumulated angle `angle`, step CIRCLE_ANGLESIZE = 10. -/
def circleSegsFrom : Nat → Nat → List CircleSeg
  | 0, _ => []
  | n + 1, angle =>
    { startAngle := angle, endAngle := angle + 10 } :: circleSegsFrom n (angle + 10)

/-- MapCircle state: m_initialized and the 36-entry m_components array
(None = segment pointer is null). -/
structure MapCircleSt where
  initialized : Bool
  components : List (Option CircleSeg)
deriving DecidableEq, Repr

/-- MapCircle::MapCircle (map_object.cpp lines 1194-1197): all component
pointers zeroed, m_initialized false. -/
def circleInit : MapCircleSt :=
  { initialized := false, components := List.replicate 36 none }

/-- MapCircle::Clear (map_object.cpp lines 1204-1216): a no-op unless
m_initialized; otherwise every non-null segment is deleted and nulled.
Note the source does not reset m_initialized. -/
def circleClear (s : MapCircleSt) : MapCircleSt :=
  if !s.initialized then s
  else { s with components := s.components.map (fun _ => none) }

/-- MapCircle::UpdateCircle (map_object.cpp lines 1218-1240): every missing
segment is allocated, every segment gets the loop geometry (angle
accumulator starting at 0, step 10), and m_initialized is set. -/
def circleUpdate (s : MapCircleSt) : MapCircleSt :=
  { s with
    initialized := true
    components := (circleSegsFrom 36 0).map some }

inductive CircleOp where
  | clear
  | update
deriving DecidableEq, Repr

def circleStep (s : MapCircleSt) : CircleOp → MapCircleSt
  | CircleOp.clear => circleClear s
  | CircleOp.update => circleUpdate s

/-- A MapCircle over its lifetime: constructed, then any sequence of Clear
and UpdateCircle calls. -/
def runCircle (ops : List CircleOp) : MapCircleSt :=
  ops.foldl circleStep circleInit

/-- The segment stored at index i (null pointer and out-of-range read both
as `none`). -/
def segAt (s : MapCircleSt) (i : Nat) : Option CircleSeg :=
  s.components.getD i none

/-! ## FormatString (map_object.cpp lines 342-398)

The template is the character list before the NUL terminator.  Positions
are integer-valued (the source stores floats; decimal rendering of the
component is abbreviated `intChars`). -/

/-- The fields of MapObject that the base format specifiers read:
m_text and m_pos. -/
structure FmtObject where
  text : List Char
  posX : Int
  posY : Int
  posZ : Int
deriving DecidableEq, Repr

/-- Decimal rendering of a numeric position component
(std::to_string in the source). -/
def intChars (i : Int) : List Char :=
  if i < 0 then '-' :: Nat.toDigits 10 i.natAbs else Nat.toDigits 10 i.natAbs

/-- MapObject::HandleFormatSpecifier (map_object.cpp lines 361-398): the
base switch over the one specifier character. -/
def HandleFormatSpecifier (o : FmtObject) (spec : Char) : List Char :=
  if spec = 'N' ∨ spec = 'n' then o.text
  else if spec = 'h' then ['1']
  else if spec = 'i' ∨ spec = 'l' then ['0']
  else if spec = 'x' then intChars o.posX
  else if spec = 'y' then intChars o.posY
  else if spec = 'z' then intChars o.posZ
  else if spec = '%' then ['%']
  else ['%', spec]

/-- MapObject::FormatString (map_object.cpp lines 342-359): single pass;
a non-percent character is copied; a percent consumes the next character
as the specifier.  When the percent is the last character before the NUL,
the source reads the NUL as the specifier and then runs past the
terminator (see fsMaxRead); the model hands the NUL to the handler and
stops there. -/
def FormatString (o : FmtObject) : List Char → List Char
  | [] => []
  | c :: rest =>
    if c = '%' then
      match rest with
      | [] => HandleFormatSpecifier o (Char.ofNat 0)
      | spec :: rest2 => HandleFormatSpecifier o spec ++ FormatString o rest2
    else c :: FormatString o rest

/-- The largest index of formatString that the FormatString loop
(map_object.cpp lines 346-357) evaluates, for a template whose characters
before the NUL are the given list, scanning from index n.  On exhaustion
the loop condition reads the NUL at the current index; on a trailing
percent the pre-increment reads the NUL as the specifier at n+1 and the
loop then evaluates index n+2, one past the terminator. -/
def fsMaxRead : Nat → List Char → Nat
  | n, [] => n
  | n, c :: rest =>
    if c = '%' then
      match rest with
      | [] => n + 2
      | _ :: rest2 => fsMaxRead (n + 2) rest2
    else fsMaxRead (n + 1) rest

/-! ## Spawn overlay objects (map_object.cpp lines 277-335, 405-421, 717-758,
941-1008, 1133-1142)

Positions are integer-valued world coordinates (the source stores floats;
only negation is applied to them here, which is exact). -/

/-- MapFilter enum values used below (map.h lines 22-63). -/
def MF.All : Nat := 0
def MF.PC : Nat := 1
def MF.Mount : Nat := 4
def MF.NPC : Nat := 5
def MF.Untargetable : Nat := 7
def MF.Pet : Nat := 8
def MF.Corpse : Nat := 9
def MF.Chest : Nat := 10
def MF.Trigger : Nat := 11
def MF.Trap : Nat := 12
def MF.Timer : Nat := 13
def MF.Ground : Nat := 14
def MF.Target : Nat := 15
def MF.Vector : Nat := 19
def MF.Custom : Nat := 20
def MF.NormalLabels : Nat := 22
def MF.Aura : Nat := 25
def MF.Object : Nat := 26
def MF.Banner : Nat := 27
def MF.Campfire : Nat := 28
def MF.PCCorpse : Nat := 29
def MF.NPCCorpse : Nat := 30
def MF.Mercenary : Nat := 31
def MF.Named : Nat := 32
def MF.Marker : Nat := 34

structure V3 where
  x : Int
  y : Int
  z : Int
deriving DecidableEq, Repr

/-- eSpawnType values distinguished by the map code. -/
inductive ESpawnType where
  | NONE
  | PC
  | NPC
  | CORPSE
  | UNTARGETABLE
  | CHEST
  | TRIGGER
  | TIMER
  | TRAP
  | ITEM
  | MOUNT
  | PET
  | AURA
  | OBJECT
  | BANNER
  | CAMPFIRE
  | MERCENARY
  | FLYER
deriving DecidableEq, Repr

/-- The world-snapshot data for one spawn that the map object code reads:
position, heading, classified type and deity (SpawnAccess getters). -/
structure SpawnSnapshot where
  x : Int
  y : Int
  z : Int
  heading : Int
  stype : ESpawnType
  deity : Int
deriving DecidableEq, Repr

/-- CanDisplaySpawnObject (map_object.cpp lines 941-998).  `isTarget` is
the (spawn == pTarget) test, `custMatch` the SpawnMatchesSearch result
against MapFilterCustom, `namedSpawn` the IsNamed result. -/
def CanDisplaySpawnObject (en : Nat → Bool) (isTarget custMatch namedSpawn : Bool)
    (snap : SpawnSnapshot) : Bool :=
  if isTarget && IsOptionEnabled en (some MF.Target) then true
  else if IsOptionEnabled en (some MF.Custom) then custMatch
  else
    match snap.stype with
    | ESpawnType.PC => IsOptionEnabled en (some MF.PC)
    | ESpawnType.NPC =>
      if IsOptionEnabled en (some MF.Named) then namedSpawn
      else IsOptionEnabled en (some MF.NPC)
    | ESpawnType.CORPSE =>
      if snap.deity = 0 then IsOptionEnabled en (some MF.NPCCorpse)
      else IsOptionEnabled en (some MF.PCCorpse)
    | ESpawnType.ITEM => IsOptionEnabled en (some MF.Ground)
    | ESpawnType.UNTARGETABLE => IsOptionEnabled en (some MF.Untargetable)
    | ESpawnType.TIMER => IsOptionEnabled en (some MF.Timer)
    | ESpawnType.TRAP => IsOptionEnabled en (some MF.Trap)
    | ESpawnType.TRIGGER => IsOptionEnabled en (some MF.Trigger)
    | ESpawnType.CHEST => IsOptionEnabled en (some MF.Chest)
    | ESpawnType.PET => IsOptionEnabled en (some MF.Pet)
    | ESpawnType.MOUNT => IsOptionEnabled en (some MF.Mount)
    | ESpawnType.AURA => IsOptionEnabled en (some MF.Aura)
    | ESpawnType.OBJECT => IsOptionEnabled en (some MF.Object)
    | ESpawnType.BANNER => IsOptionEnabled en (some MF.Banner)
    | ESpawnType.CAMPFIRE => IsOptionEnabled en (some MF.Campfire)
    | ESpawnType.MERCENARY => IsOptionEnabled en (some MF.Mercenary)
    | ESpawnType.FLYER => false
    | ESpawnType.NONE => true

/-- The MAPLABEL fields claim C8 observes (Location; map_object.cpp
lines 408-410). -/
structure MapLabelSt where
  location : V3
deriving DecidableEq, Repr

/-- The MapObjectSpawn fields claim C8 observes: m_pos, m_heading and the
owned label. -/
structure MapObjectSp where
  pos : V3
  heading : Int
  label : MapLabelSt
deriving DecidableEq, Repr

/-- MapObject::GenerateLabel (map_object.cpp lines 405-421): the fresh
label location mirrors the current cached position with X and Y negated. -/
def GenerateLabel (o : MapObjectSp) : MapObjectSp :=
  { o with label := { location := { x := -o.pos.x, y := -o.pos.y, z := o.pos.z } } }

/-- MapObject::Update label maintenance (map_object.cpp lines 317-324):
the label location is resynced from the cached m_pos with X and Y negated,
Z preserved.  (Highlight color and marker refresh, lines 326-334, touch no
position and are modelled in the marker section.) -/
def MapObject_UpdateBase (o : MapObjectSp) : MapObjectSp :=
  { o with label := { location := { x := -o.pos.x, y := -o.pos.y, z := o.pos.z } } }

/-- MapObjectSpawn::Update (map_object.cpp lines 750-785) restricted to the
position path: m_pos and m_heading are re-read from the snapshot, then the
base update runs.  (Text and color recomputation reads no position.) -/
def MapObjectSpawn_Update (snap : SpawnSnapshot) (o : MapObjectSp) : MapObjectSp :=
  MapObject_UpdateBase
    { o with pos := { x := snap.x, y := snap.y, z := snap.z }, heading := snap.heading }

/-- MapObjectSpawn constructor (map_object.cpp lines 717-728): the base
MapObject constructor leaves m_pos default-zero, then GenerateLabel runs
(SetText/SetColor touch no position). -/
def MapObjectSpawn_ctor : MapObjectSp :=
  GenerateLabel { pos := { x := 0, y := 0, z := 0 }, heading := 0,
                  label := { location := { x := 0, y := 0, z := 0 } } }

/-- MapObjectSpawn::PostInit (map_object.cpp lines 285-289, 740-748):
GenerateMarker (modelled in the marker section) then a forced Update. -/
def MapObjectSpawn_PostInit (snap : SpawnSnapshot) (o : MapObjectSp) : MapObjectSp :=
  MapObjectSpawn_Update snap o

/-- MakeMapObject for spawns (map_object.cpp lines 1133-1142): the gate
rejects a non-explicit spawn that fails CanDisplaySpawnObject with no
allocation; otherwise the object is constructed and PostInit runs. -/
def MakeMapObjectSpawn (en : Nat → Bool) (isTarget custMatch namedSpawn : Bool)
    (snap : SpawnSnapshot) (explicitFlag : Bool) : Option MapObjectSp :=
  if !explicitFlag && !CanDisplaySpawnObject en isTarget custMatch namedSpawn snap then none
  else some (MapObjectSpawn_PostInit snap MapObjectSpawn_ctor)

/-- AddSpawn applied to an active-object list: the factory either creates
nothing or pushes exactly the one new object onto the list
(MapObject constructor, map_object.cpp lines 277-283). -/
def AddSpawnScenario (en : Nat → Bool) (isTarget custMatch namedSpawn : Bool)
    (snap : SpawnSnapshot) (explicitFlag : Bool)
    (objs : List MapObjectSp) : List MapObjectSp :=
  match MakeMapObjectSpawn en isTarget custMatch namedSpawn snap explicitFlag with
  | none => objs
  | some o => o :: objs

/-- Filter bits for the claim C8 scenario: All and PC enabled, everything
else (in particular Custom, Named, Target, Marker) disabled. -/
def c8Filters : Nat → Bool := fun i => i == MF.All || i == MF.PC

/-- The claim C8 scenario snapshot: a PC spawn at position (10, 20, 5). -/
def c8Snap : SpawnSnapshot :=
  { x := 10, y := 20, z := 5, heading := 0, stype := ESpawnType.PC, deity := 1 }

/-! ## Object index (map_object.cpp lines 715, 1065, 1133-1188;
map_api.cpp lines 157-184)

Objects are identified by allocation order; `nextId` is the next fresh id.
SpawnMap and GroundItemMap are association lists from external handle to
object id; std::map subscript assignment is `assocSet`, member erase is
`assocErase`, find is `assocFind`.  The gate results (CanDisplaySpawnObject
and IsOptionEnabled(Ground)) are carried on the operations as booleans. -/

def assocFind : List (Nat × Nat) → Nat → Option Nat
  | [], _ => none
  | (k0, v0) :: rest, k => if k0 = k then some v0 else assocFind rest k

def assocSet : List (Nat × Nat) → Nat → Nat → List (Nat × Nat)
  | [], k, v => [(k, v)]
  | (k0, v0) :: rest, k, v =>
    if k0 = k then (k, v) :: rest else (k0, v0) :: assocSet rest k v

def assocErase (m : List (Nat × Nat)) (k : Nat) : List (Nat × Nat) :=
  m.filter (fun p => p.1 != k)

/-- One Add/Remove operation against the object index.  `explicitFlag` is
the ExplicitAllow argument of AddSpawn, `canDisplay` the
CanDisplaySpawnObject result for the spawn, `groundEnabled` the
IsOptionEnabled(MapFilter::Ground) result. -/
inductive IdxOp where
  | addSpawn (h : Nat) (explicitFlag : Bool) (canDisplay : Bool)
  | removeSpawn (h : Nat)
  | addGround (h : Nat) (groundEnabled : Bool)
  | removeGround (h : Nat)
deriving DecidableEq, Repr

/-- The object-index state: dedupe maps, the global active list of object
ids (head = most recently constructed) and the fresh-id counter. -/
structure IdxState where
  nextId : Nat
  active : List Nat
  spawnMap : List (Nat × Nat)
  groundMap : List (Nat × Nat)
deriving DecidableEq, Repr

/-- One step of the object index.
Add spawn = MakeMapObject(SPAWNINFO*,bool) (map_object.cpp lines
1133-1142): rejected when neither explicit nor displayable; otherwise the
MapObjectSpawn constructor pushes a fresh object onto the active list head
and overwrites SpawnMap[h].
Remove spawn = RemoveSpawn (map_api.cpp lines 162-171): FindMapObject then
delete; the destructor erases SpawnMap[h] and unlinks the object from the
active list (map_object.cpp lines 291-315, 730-738).
Ground item operations are the analogous MakeMapObject(EQGroundItem*)
(gated by the Ground filter) and RemoveGroundItem. -/
def idxStep (s : IdxState) : IdxOp → IdxState
  | IdxOp.addSpawn h e c =>
    if !e && !c then s
    else
      { nextId := s.nextId + 1
        active := s.nextId :: s.active
        spawnMap := assocSet s.spawnMap h s.nextId
        groundMap := s.groundMap }
  | IdxOp.removeSpawn h =>
    match assocFind s.spawnMap h with
    | none => s
    | some objId =>
      { s with spawnMap := assocErase s.spawnMap h, active := s.active.erase objId }
  | IdxOp.addGround h g =>
    if !g then s
    else
      { nextId := s.nextId + 1
        active := s.nextId :: s.active
        spawnMap := s.spawnMap
        groundMap := assocSet s.groundMap h s.nextId }
  | IdxOp.removeGround h =>
    match assocFind s.groundMap h with
    | none => s
    | some objId =>
      { s with groundMap := assocErase s.groundMap h, active := s.active.erase objId }

def idxInit : IdxState :=
  { nextId := 0, active := [], spawnMap := [], groundMap := [] }

def runIdx (ops : List IdxOp) : IdxState :=
  ops.foldl idxStep idxInit

/-- Specification-side bookkeeping, from the spec words: the set of spawn
handles added-and-not-removed (an add counts when it actually created an
object, i.e. was explicit or displayable). -/
def specSpawnStep (l : List Nat) : IdxOp → List Nat
  | IdxOp.addSpawn h e c =>
    if e || c then (if h ∈ l then l else h :: l) else l
  | IdxOp.removeSpawn h => l.filter (fun a => a != h)
  | _ => l

/-- Specification-side set of ground handles added-and-not-removed. -/
def specGroundStep (l : List Nat) : IdxOp → List Nat
  | IdxOp.addGround h g =>
    if g then (if h ∈ l then l else h :: l) else l
  | IdxOp.removeGround h => l.filter (fun a => a != h)
  | _ => l

def specSpawnKeys (ops : List IdxOp) : List Nat :=
  ops.foldl specSpawnStep []

def specGroundKeys (ops : List IdxOp) : List Nat :=
  ops.foldl specGroundStep []

/-- The invariant claim C1 asserts of the object index: each dedupe map has
at most one entry per handle, all mapped objects are distinct (within and
across the two maps), and every mapped object is live on the active list.
The id bound and active-list distinctness make the induction go through. -/
def IdxInv (s : IdxState) : Prop :=
  (s.spawnMap.map Prod.fst).Nodup ∧
  (s.groundMap.map Prod.fst).Nodup ∧
  (s.spawnMap.map Prod.snd ++ s.groundMap.map Prod.snd).Nodup ∧
  (∀ v ∈ s.spawnMap.map Prod.snd, v ∈ s.active) ∧
  (∀ v ∈ s.groundMap.map Prod.snd, v ∈ s.active) ∧
  s.active.Nodup ∧
  (∀ a ∈ s.active, a < s.nextId)

/-- Filter bits for the claim C5 witness: every Enabled bit set except
PC (enum value 1), the prerequisite of PCConColor (enum value 2). -/
def c5Filters : Nat → Bool := fun i => !(i == 1)

/-- Concrete object for the claim C9 witness. -/
def c9Obj : FmtObject :=
  { text := ['B', 'o', 'b'], posX := 10, posY := 20, posZ := 5 }

/-- Concrete operation sequence for the claim C1 witness: the same spawn
handle added twice (the second add re-creates and re-indexes it), a ground
item added, then the spawn handle removed. -/
def c1Ops : List IdxOp :=
  [IdxOp.addSpawn 5 false true, IdxOp.addSpawn 5 false true,
   IdxOp.addGround 9 true, IdxOp.removeSpawn 5]

/-- Marker allocation invariant of a live MapObject: the number of lines in
m_markerLines is exactly GetNumMarkerSides of the current m_marker (in
particular zero when the marker type is None). -/
def MarkerInv (s : MarkerState) : Prop :=
  s.markerLines = GetNumMarkerSides s.marker

/-- Every component pointer of the circle is null. -/
def circleAllNone (s : MapCircleSt) : Prop :=
  ∀ c ∈ s.components, c = none

/-- Every component pointer of the circle is non-null. -/
def circleAllSome (s : MapCircleSt) : Prop :=
  ∀ c ∈ s.components, c ≠ none

/-- The MapCircle lifetime invariant: an uninitialized circle has no
segments, the 36 components are all allocated or all null, and the
component array always has exactly 36 slots. -/
def CircleInv (s : MapCircleSt) : Prop :=
  (s.initialized = false → circleAllNone s) ∧
  (circleAllSome s ∨ circleAllNone s) ∧
  s.components.length = 36

/-! # Theorems -/

/-! ## Claim C2: attach-then-detach restores the host heads -/

/-- Claim C2: for every state of the engine label and line chains and every
pair of host head pointers, MapAttach immediately followed by MapDetach
with no intervening host mutation restores the host label head and line
head to their exact pre-attach values and leaves both engine chain tail
links null, regardless of the NormalLabels filter and of which engine
chains are empty.  The two hypotheses are the representation invariant of
an un-spliced tail: an empty chain has no tail, so its tail link is null. -/
theorem C2_attach_detach_restores_host (s : MapEngineState)
    (hlab : s.engLabels = [] → s.engLabelTailNext = MPtr.null)
    (hlin : s.engLines = [] → s.engLineTailNext = MPtr.null) :
    (MapDetach (MapAttach s)).hostLabelHead = s.hostLabelHead ∧
    (MapDetach (MapAttach s)).hostLineHead = s.hostLineHead ∧
    (MapDetach (MapAttach s)).engLabelTailNext = MPtr.null ∧
    (MapDetach (MapAttach s)).engLineTailNext = MPtr.null := by
  unfold MapAttach MapDetach MapAttachLabels MapAttachLines MapDetachLabels MapDetachLines
  rcases s with ⟨active, spawnMap, groundMap, engLabels, engLabelTailNext, engLines,
    engLineTailNext, targetLine, circles, lastTarget, hostLabelHead, hostLineHead,
    pActual, lAtt, nAtt, normal⟩
  simp only at hlab hlin
  cases engLabels <;> cases engLines <;> cases lAtt <;> cases nAtt <;>
    simp_all [List.isEmpty]

/-- Witness for claim C2 at the concrete state c2Example. -/
theorem C2_attach_detach_restores_host_witness :
    (MapDetach (MapAttach c2Example)).hostLabelHead = c2Example.hostLabelHead ∧
    (MapDetach (MapAttach c2Example)).hostLineHead = c2Example.hostLineHead ∧
    (MapDetach (MapAttach c2Example)).engLabelTailNext = MPtr.null ∧
    (MapDetach (MapAttach c2Example)).engLineTailNext = MPtr.null :=
  C2_attach_detach_restores_host c2Example (by decide) (by decide)

/-! ## Claim C4: detach without a matching attach is a no-op -/

/-- Claim C4: when neither attached flag is set, MapDetach changes nothing:
host heads and engine chains are untouched; moreover MapDetach rewrites the
host label head only when s_labelsAttached was set by a prior attach. -/
theorem C4_detach_without_attach_noop (s : MapEngineState) :
    (s.labelsAttached = false → s.linesAttached = false → MapDetach s = s) ∧
    ((MapDetach s).hostLabelHead ≠ s.hostLabelHead → s.labelsAttached = true) := by
  constructor
  · intro h1 h2
    unfold MapDetach MapDetachLabels MapDetachLines
    simp [h1, h2]
  · intro hne
    by_contra hflag
    apply hne
    have hfalse : s.labelsAttached = false := by
      cases h : s.labelsAttached
      · rfl
      · exact absurd h hflag
    unfold MapDetach MapDetachLabels MapDetachLines
    rcases s with ⟨active, spawnMap, groundMap, engLabels, engLabelTailNext, engLines,
      engLineTailNext, targetLine, circles, lastTarget, hostLabelHead, hostLineHead,
      pActual, lAtt, nAtt, normal⟩
    simp only at hfalse
    subst hfalse
    cases nAtt <;> cases engLines <;> simp [List.isEmpty]

/-- Witness for claim C4 at the concrete detached state c4Example. -/
theorem C4_detach_without_attach_noop_witness :
    MapDetach c4Example = c4Example :=
  (C4_detach_without_attach_noop c4Example).1 rfl rfl

/-! ## Claim C3: MapClear -/

/-- Counterexample to claim C3: from the mid-splice state (c3PreSplice after
MapAttach, where the host label head points at engine label node 0),
MapClear destroys every engine label but performs no detach: the host
label head still references engine node 0 (now freed) and s_labelsAttached
is still set.  The claimed "forces an emergency Detach first, so that after
it returns the host chains no longer reference any engine-owned node" is
false of MapClear. -/
theorem C3_no_emergency_detach_counterexample :
    (MapClear (MapAttach c3PreSplice)).engLabels = [] ∧
    (MapClear (MapAttach c3PreSplice)).hostLabelHead = MPtr.eng 0 ∧
    (MapClear (MapAttach c3PreSplice)).labelsAttached = true ∧
    (MapClear (MapAttach c3PreSplice)).hostLabelHead ≠
      (MapDetach (MapAttach c3PreSplice)).hostLabelHead := by
  decide

/-- Claim C3 as amended: MapClear can be called at any time - when nothing
has ever been generated (it fixes the initial state), and repeatedly (it is
idempotent) - and it always empties the engine state: object index maps,
active list, engine label and line chains, target line, radius circles and
last-target pointer.  But it performs no detach: the attached flags, the
saved pre-attach head and the host head pointers are left exactly as they
were, so a mid-splice MapClear leaves the host chains still referencing
engine-owned nodes until the next MapDetach. -/
theorem C3_clear_empties_engine_state (s : MapEngineState) :
    (MapClear s).active = [] ∧
    (MapClear s).spawnMap = [] ∧
    (MapClear s).groundMap = [] ∧
    (MapClear s).engLabels = [] ∧
    (MapClear s).engLines = [] ∧
    (MapClear s).engLabelTailNext = MPtr.null ∧
    (MapClear s).engLineTailNext = MPtr.null ∧
    (MapClear s).targetLine = none ∧
    (MapClear s).circlesAllocated = List.replicate 6 false ∧
    (MapClear s).lastTarget = none ∧
    (MapClear s).hostLabelHead = s.hostLabelHead ∧
    (MapClear s).hostLineHead = s.hostLineHead ∧
    (MapClear s).pActualLabelList = s.pActualLabelList ∧
    (MapClear s).labelsAttached = s.labelsAttached ∧
    (MapClear s).linesAttached = s.linesAttached ∧
    MapClear (MapClear s) = MapClear s ∧
    MapClear initEngineState = initEngineState := by
  refine ⟨rfl, rfl, rfl, rfl, rfl, rfl, rfl, rfl, rfl, rfl, rfl, rfl, rfl, rfl, rfl, rfl, ?_⟩
  decide

/-! ## Claim C5: the filter dependency recursion -/

/-- Every RequiresOption reference in the shipped table points at a
strictly smaller enum value: the dependency references form a DAG (in fact
a forest) rooted at Invalid. -/
theorem requiresNat_lt {i j : Nat} (h : requiresNat i = some j) : j < i := by
  by_cases hi : i < 37
  · have hall := List.all_eq_true.mp (show
      (List.range 37).all (fun k =>
        match requiresNat k with
        | none => true
        | some m => decide (m < k)) = true by decide)
    have hk := hall i (List.mem_range.mpr hi)
    simp only at hk
    rw [h] at hk
    exact of_decide_eq_true hk
  · exfalso
    have hnone : requiresNat i = none := by
      unfold requiresNat
      apply List.getD_eq_default
      have hlen : requiresTable.length = 37 := rfl
      omega
    rw [hnone] at h
    cases h

/-- A some-valued requires reference only occurs for an in-range id. -/
theorem requiresNat_some_lt37 {i j : Nat} (h : requiresNat i = some j) : i < 37 := by
  by_contra hi
  have hnone : requiresNat i = none := by
    unfold requiresNat
    apply List.getD_eq_default
    have hlen : requiresTable.length = 37 := rfl
    omega
  rw [hnone] at h
  cases h

/-- Adding one unit of fuel beyond the recursion depth changes nothing. -/
theorem isEnabledFuel_fuel_succ (en : Nat → Bool) :
    ∀ (f : Nat) (o : Option Nat), mfMeasure o ≤ f →
      isEnabledFuel en f o = isEnabledFuel en (f + 1) o := by
  intro f
  induction f with
  | zero =>
    intro o h
    cases o with
    | none => rfl
    | some i => simp [mfMeasure] at h
  | succ f ih =>
    intro o h
    cases o with
    | none => rfl
    | some i =>
      show (enabledOf en i && isEnabledFuel en f (requiresNat i)) =
        (enabledOf en i && isEnabledFuel en (f + 1) (requiresNat i))
      simp only [mfMeasure] at h
      have hreq : mfMeasure (requiresNat i) ≤ f := by
        cases hr : requiresNat i with
        | none => simp [mfMeasure]
        | some j =>
          have hj := requiresNat_lt hr
          simp only [mfMeasure]
          omega
      rw [ih (requiresNat i) hreq]

/-- Fuel adequacy: any fuel at or beyond the recursion depth computes the
same answer.  This is the formal termination argument of the source
recursion over the DAG. -/
theorem isEnabledFuel_eq_of_le (en : Nat → Bool) (o : Option Nat)
    {f g : Nat} (hf : mfMeasure o ≤ f) (hfg : f ≤ g) :
    isEnabledFuel en f o = isEnabledFuel en g o := by
  induction hfg with
  | refl => rfl
  | step h ih =>
    rw [ih, isEnabledFuel_fuel_succ en _ o (le_trans hf h)]

/-- The defining recursion of IsOptionEnabled (map.h lines 178-185),
recovered from the fuel embedding: for every id, the option Enabled bit
(out-of-range ids read the Invalid sentinel) AND the requirement,
recursively. -/
theorem IsOptionEnabled_unfold (en : Nat → Bool) (i : Nat) :
    IsOptionEnabled en (some i) =
      (enabledOf en i && IsOptionEnabled en (requiresNat i)) := by
  show isEnabledFuel en (37 + 1) (some i) =
    (enabledOf en i && isEnabledFuel en (37 + 1) (requiresNat i))
  rw [show isEnabledFuel en (37 + 1) (some i) =
    (enabledOf en i && isEnabledFuel en 37 (requiresNat i)) from rfl]
  have hm : mfMeasure (requiresNat i) ≤ 37 := by
    cases hr : requiresNat i with
    | none => simp [mfMeasure]
    | some j =>
      have h1 := requiresNat_lt hr
      have h2 := requiresNat_some_lt37 hr
      simp only [mfMeasure]
      omega
  rw [isEnabledFuel_eq_of_le en (requiresNat i) hm (Nat.le_succ 37)]

theorem reqIter_of_none (n : Nat) : reqIter n none = none := by
  cases n <;> rfl

theorem reqIter_succ_of_none :
    ∀ (n : Nat) (o : Option Nat), reqIter n o = none → reqIter (n + 1) o = none := by
  intro n
  induction n with
  | zero =>
    intro o h
    have ho : o = none := h
    rw [ho]
    rfl
  | succ n ih =>
    intro o h
    cases o with
    | none => exact reqIter_of_none _
    | some i =>
      show reqIter (n + 1) (requiresNat i) = none
      exact ih _ h

theorem reqIter_mono (o : Option Nat) {n m : Nat} (hnm : n ≤ m)
    (h : reqIter n o = none) : reqIter m o = none := by
  induction hnm with
  | refl => exact h
  | step _ ih => exact reqIter_succ_of_none _ o ih

/-- The requires chain of every filter id reaches Invalid within i+1 steps:
the dependency graph is rooted at Invalid, so the source recursion
terminates. -/
theorem reqIter_rooted (i : Nat) : reqIter (i + 1) (some i) = none := by
  induction i using Nat.strong_induction_on with
  | _ i ih =>
    show reqIter i (requiresNat i) = none
    cases hr : requiresNat i with
    | none => exact reqIter_of_none i
    | some j =>
      have hj := requiresNat_lt hr
      exact reqIter_mono (some j) (Nat.succ_le_of_lt hj) (ih j hj)

/-- Claim C5: IsOptionEnabled of Invalid is true; for every real filter id
the value is the option Enabled bit AND (recursively) IsOptionEnabled of
its requirement; consequently any option whose requires chain reaches a
disabled parent is itself disabled regardless of its own Enabled bit; and
the requires chain of every id reaches Invalid (the recursion terminates
because the shipped table is a DAG rooted at Invalid). -/
theorem C5_filter_enabled_recursion (en : Nat → Bool) (i c p : Nat)
    (hi : i < 37) (hreach : ReqReaches c p)
    (hp : IsOptionEnabled en (some p) = false) :
    IsOptionEnabled en none = true ∧
    IsOptionEnabled en (some i) = (en i && IsOptionEnabled en (requiresNat i)) ∧
    IsOptionEnabled en (some c) = false ∧
    reqIter (i + 1) (some i) = none := by
  refine ⟨rfl, ?_, ?_, reqIter_rooted i⟩
  · rw [IsOptionEnabled_unfold]
    unfold enabledOf
    rw [if_pos hi]
  · induction hreach with
    | direct h =>
      rw [IsOptionEnabled_unfold]
      rename_i c0 p0
      rw [h, hp, Bool.and_false]
    | step h _ ih =>
      rw [IsOptionEnabled_unfold]
      rw [h, ih hp, Bool.and_false]

/-- Witness for claim C5: with every filter bit set except PC (the
prerequisite of PCConColor), PCConColor is disabled despite its own bit. -/
theorem C5_filter_enabled_recursion_witness :
    IsOptionEnabled c5Filters none = true ∧
    IsOptionEnabled c5Filters (some 5) =
      (c5Filters 5 && IsOptionEnabled c5Filters (requiresNat 5)) ∧
    IsOptionEnabled c5Filters (some 2) = false ∧
    reqIter 6 (some 5) = none :=
  C5_filter_enabled_recursion c5Filters 5 2 1 (by decide)
    (ReqReaches.direct (by decide)) (by decide)

/-! ## Claim C6: marker segment counts -/

/-- PostInit establishes the marker allocation invariant. -/
theorem markerInv_generate (e : Bool) (shape : MarkerType) :
    MarkerInv (GenerateMarker e shape { marker := MarkerType.none, markerLines := 0 }) := by
  unfold MarkerInv GenerateMarker
  cases e with
  | false => simp [GetNumMarkerSides]
  | true =>
    by_cases h : shape = MarkerType.none
    · simp [h, GetNumMarkerSides]
    · simp [h]

/-- Every later update/remove event preserves the marker invariant. -/
theorem markerInv_step (s : MarkerState) (op : MarkerOp) (h : MarkerInv s) :
    MarkerInv (markerStep s op) := by
  have hrem : MarkerInv (RemoveMarker s) := by
    unfold RemoveMarker
    by_cases hm : s.marker = MarkerType.none
    · rw [if_pos hm]
      exact h
    · rw [if_neg hm]
      simp [MarkerInv, GetNumMarkerSides]
  cases op with
  | update e => cases e <;> simpa [markerStep, UpdateMarker]
  | remove => simpa [markerStep] using hrem

/-- The invariant holds at every point of a MapObject marker lifetime. -/
theorem markerInv_run (e : Bool) (shape : MarkerType) (ops : List MarkerOp) :
    MarkerInv (runMarker e shape ops) := by
  unfold runMarker
  have hgen := markerInv_generate e shape
  revert hgen
  generalize GenerateMarker e shape { marker := MarkerType.none, markerLines := 0 } = s0
  induction ops generalizing s0 with
  | nil => intro h; exact h
  | cons op rest ih =>
    intro h
    exact ih _ (markerInv_step s0 op h)

/-- Claim C6: GenerateMarker with the Marker filter enabled produces
exactly 8 segments for Ring, 4 for Square, 4 for Diamond, 3 for Triangle;
and on any reachable marker state RemoveMarker leaves zero segments and
resets the marker type to None. -/
theorem C6_marker_segment_counts (e : Bool) (shape : MarkerType)
    (ops : List MarkerOp) (s : MarkerState) :
    (GenerateMarker true MarkerType.ring s).markerLines = 8 ∧
    (GenerateMarker true MarkerType.square s).markerLines = 4 ∧
    (GenerateMarker true MarkerType.diamond s).markerLines = 4 ∧
    (GenerateMarker true MarkerType.triangle s).markerLines = 3 ∧
    (RemoveMarker (runMarker e shape ops)).markerLines = 0 ∧
    (RemoveMarker (runMarker e shape ops)).marker = MarkerType.none := by
  have hinv := markerInv_run e shape ops
  refine ⟨?_, ?_, ?_, ?_, ?_, ?_⟩
  · simp [GenerateMarker, GetNumMarkerSides]
  · simp [GenerateMarker, GetNumMarkerSides]
  · simp [GenerateMarker, GetNumMarkerSides]
  · simp [GenerateMarker, GetNumMarkerSides]
  · unfold RemoveMarker
    by_cases hm : (runMarker e shape ops).marker = MarkerType.none
    · rw [if_pos hm]
      unfold MarkerInv at hinv
      rw [hinv, hm]
      rfl
    · rw [if_neg hm]
  · unfold RemoveMarker
    by_cases hm : (runMarker e shape ops).marker = MarkerType.none
    · rw [if_pos hm]
      exact hm
    · rw [if_neg hm]

/-! ## Claim C7: the 36-segment circle -/

theorem circleSegsFrom_length : ∀ (n a : Nat), (circleSegsFrom n a).length = n := by
  intro n
  induction n with
  | zero => intro a; rfl
  | succ n ih =>
    intro a
    show (circleSegsFrom n (a + 10)).length + 1 = n + 1
    rw [ih]

theorem circleSegsFrom_get? :
    ∀ (n a i : Nat), i < n →
      (circleSegsFrom n a).get? i =
        some { startAngle := a + 10 * i, endAngle := a + 10 * i + 10 } := by
  intro n
  induction n with
  | zero => intro a i h; exact absurd h (Nat.not_lt_zero i)
  | succ n ih =>
    intro a i h
    cases i with
    | zero => simp [circleSegsFrom]
    | succ i =>
      show (circleSegsFrom n (a + 10)).get? i = _
      rw [ih (a + 10) i (Nat.lt_of_succ_lt_succ h)]
      simp only [Option.some.injEq, CircleSeg.mk.injEq]
      omega

/-- After UpdateCircle, slot i holds the segment whose start angle is 10i
degrees and whose end angle is 10i+10 degrees. -/
theorem segAt_update (s : MapCircleSt) (i : Nat) (h : i < 36) :
    segAt (circleUpdate s) i =
      some { startAngle := 10 * i, endAngle := 10 * i + 10 } := by
  show ((circleSegsFrom 36 0).map some).getD i none = _
  rw [List.getD_eq_getD_get?, List.get?_map, circleSegsFrom_get? 36 0 i h]
  simp only [Option.map_some', Option.getD_some, Option.some.injEq, CircleSeg.mk.injEq]
  omega

/-- Construction establishes the circle invariant. -/
theorem circleInv_init : CircleInv circleInit := by
  refine ⟨fun _ => ?_, Or.inr ?_, ?_⟩
  · intro c hc
    exact List.eq_of_mem_replicate hc
  · intro c hc
    exact List.eq_of_mem_replicate hc
  · simp [circleInit]

/-- Clear and UpdateCircle preserve the circle invariant. -/
theorem circleInv_step (s : MapCircleSt) (op : CircleOp) (h : CircleInv s) :
    CircleInv (circleStep s op) := by
  obtain ⟨hinit, hall, hlen⟩ := h
  cases op with
  | clear =>
    show CircleInv (circleClear s)
    unfold circleClear
    cases hi : s.initialized with
    | false =>
      simp only [hi, Bool.not_false, if_true]
      exact ⟨hinit, hall, hlen⟩
    | true =>
      simp only [hi, Bool.not_true, if_false]
      refine ⟨?_, Or.inr ?_, ?_⟩
      · intro _
        intro c hc
        rcases List.mem_map.mp hc with ⟨a, _, rfl⟩
        rfl
      · intro c hc
        rcases List.mem_map.mp hc with ⟨a, _, rfl⟩
        rfl
      · simpa using hlen
  | update =>
    show CircleInv (circleUpdate s)
    refine ⟨by simp [circleUpdate], Or.inl ?_, ?_⟩
    · intro c hc
      rcases List.mem_map.mp hc with ⟨a, _, rfl⟩
      simp
    · show ((circleSegsFrom 36 0).map some).length = 36
      rw [List.length_map, circleSegsFrom_length]

/-- The circle invariant holds at every point of a MapCircle lifetime. -/
theorem circleInv_run (ops : List CircleOp) : CircleInv (runCircle ops) := by
  unfold runCircle
  have h0 := circleInv_init
  revert h0
  generalize circleInit = s0
  induction ops generalizing s0 with
  | nil => intro h; exact h
  | cons op rest ih =>
    intro h
    exact ih _ (circleInv_step s0 op h)

/-- Claim C7: after any UpdateCircle the circle holds exactly 36 segments
of 10 degrees each; the end angle of segment i equals the start angle of
segment (i+1) mod 36 modulo 360 degrees (so segment 35 closes the loop
onto segment 0); and at every point of the lifetime either all 36
segments exist or none do. -/
theorem C7_circle_closed_loop (s : MapCircleSt) (ops : List CircleOp) (i : Fin 36) :
    (circleUpdate s).components.length = 36 ∧
    segAt (circleUpdate s) i.val =
      some { startAngle := 10 * i.val, endAngle := 10 * i.val + 10 } ∧
    (∃ a b : CircleSeg,
      segAt (circleUpdate s) i.val = some a ∧
      segAt (circleUpdate s) ((i.val + 1) % 36) = some b ∧
      a.endAngle % 360 = b.startAngle % 360) ∧
    (circleAllSome (runCircle ops) ∨ circleAllNone (runCircle ops)) ∧
    (runCircle ops).components.length = 36 := by
  obtain ⟨_, hall, hlen⟩ := circleInv_run ops
  have hi := i.isLt
  have hmod : (i.val + 1) % 36 < 36 := Nat.mod_lt _ (by norm_num)
  refine ⟨?_, segAt_update s i.val hi, ?_, hall, hlen⟩
  · show ((circleSegsFrom 36 0).map some).length = 36
    rw [List.length_map, circleSegsFrom_length]
  · refine ⟨_, _, segAt_update s i.val hi, segAt_update s _ hmod, ?_⟩
    show (10 * i.val + 10) % 360 = (10 * ((i.val + 1) % 36)) % 360
    omega

/-! ## Claim C9: the base format specifier table -/

/-- Claim C9: FormatString makes a single left-to-right pass: a character
other than percent is copied through unchanged, a percent consumes exactly
one following specifier character, and the base specifier table is:
percent-percent emits a literal percent, N and n emit the display text,
h emits the character 1, i and l emit the character 0, x/y/z emit the
numeric position components, and any unrecognized specifier character
passes through literally as a percent followed by that character. -/
theorem C9_format_specifiers (o : FmtObject) (c spec : Char) (rest : List Char)
    (hc : c ≠ '%')
    (hspec : spec ∉ ['N', 'n', 'h', 'i', 'l', 'x', 'y', 'z', '%']) :
    FormatString o (c :: rest) = c :: FormatString o rest ∧
    (∀ (d : Char) (r : List Char),
      FormatString o ('%' :: d :: r) = HandleFormatSpecifier o d ++ FormatString o r) ∧
    HandleFormatSpecifier o '%' = ['%'] ∧
    HandleFormatSpecifier o 'N' = o.text ∧
    HandleFormatSpecifier o 'n' = o.text ∧
    HandleFormatSpecifier o 'h' = ['1'] ∧
    HandleFormatSpecifier o 'i' = ['0'] ∧
    HandleFormatSpecifier o 'l' = ['0'] ∧
    HandleFormatSpecifier o 'x' = intChars o.posX ∧
    HandleFormatSpecifier o 'y' = intChars o.posY ∧
    HandleFormatSpecifier o 'z' = intChars o.posZ ∧
    HandleFormatSpecifier o spec = ['%', spec] := by
  simp only [List.mem_cons, List.mem_singleton, not_or] at hspec
  obtain ⟨hN, hn, hh, hi, hl, hx, hy, hz, hp⟩ := hspec
  refine ⟨?_, ?_, ?_, ?_, ?_, ?_, ?_, ?_, ?_, ?_, ?_, ?_⟩
  · cases rest with
    | nil =>
      show (if c = '%' then HandleFormatSpecifier o (Char.ofNat 0)
        else c :: FormatString o []) = c :: FormatString o []
      rw [if_neg hc]
    | cons d r =>
      show (if c = '%' then HandleFormatSpecifier o d ++ FormatString o r
        else c :: FormatString o (d :: r)) = c :: FormatString o (d :: r)
      rw [if_neg hc]
  · intro d r
    rfl
  · simp [HandleFormatSpecifier]
  · simp [HandleFormatSpecifier]
  · simp [HandleFormatSpecifier]
  · simp [HandleFormatSpecifier]
  · simp [HandleFormatSpecifier]
  · simp [HandleFormatSpecifier]
  · simp [HandleFormatSpecifier]
  · simp [HandleFormatSpecifier]
  · simp [HandleFormatSpecifier]
  · simp [HandleFormatSpecifier, hN, hn, hh, hi, hl, hx, hy, hz, hp]

/-- Witness for claim C9 at a concrete object, the ordinary character a and
the unrecognized specifier q. -/
theorem C9_format_specifiers_witness :
    FormatString c9Obj ('a' :: []) = 'a' :: FormatString c9Obj [] ∧
    HandleFormatSpecifier c9Obj 'q' = ['%', 'q'] := by
  have h := C9_format_specifiers c9Obj 'a' 'q' [] (by decide) (by decide)
  exact ⟨h.1, h.2.2.2.2.2.2.2.2.2.2.2⟩

/-! ## Claim C10: reads past the terminator on a trailing percent -/

/-- Claim C10 is violated by the source: for the template consisting of the
single character percent (indices 0 = percent, 1 = NUL terminator), the
FormatString loop pre-increments onto the terminator to read the specifier
and the for-increment then evaluates the loop condition at index 2, one
past the terminator - an out-of-bounds read.  For templates that do not
end in an unescaped percent the scan stops exactly at the terminator
index, as the two benign instances show. -/
theorem C10_trailing_percent_reads_past_terminator :
    fsMaxRead 0 [ '%' ] = List.length [ '%' ] + 1 ∧
    fsMaxRead 0 [ 'a' ] = List.length [ 'a' ] ∧
    fsMaxRead 0 [ 'a', '%', 'b' ] = List.length [ 'a', '%', 'b' ] ∧
    fsMaxRead 0 [ 'a', '%' ] = List.length [ 'a', '%' ] + 1 := by
  decide

/-! ## Claim C8: label locations negate X and Y -/

/-- Claim C8: every base Update writes the label location from the cached
position with X and Y negated and Z preserved; the spawn Update does so
with the freshly read snapshot position; and the concrete scenario - a PC
spawn at position (10, 20, 5) added while the PC filter (and its
prerequisite All) is enabled, Custom disabled, not the current target -
creates exactly one overlay object whose label location is (-10, -20, 5). -/
theorem C8_label_position_negates_xy (o : MapObjectSp) (snap : SpawnSnapshot) :
    (MapObject_UpdateBase o).label.location =
      { x := -o.pos.x, y := -o.pos.y, z := o.pos.z } ∧
    (MapObjectSpawn_Update snap o).label.location =
      { x := -snap.x, y := -snap.y, z := snap.z } ∧
    (AddSpawnScenario c8Filters false false false c8Snap false []).length = 1 ∧
    (MakeMapObjectSpawn c8Filters false false false c8Snap false).map
      (fun ob => ob.label.location) = some { x := -10, y := -20, z := 5 } := by
  refine ⟨rfl, rfl, ?_, ?_⟩
  · decide
  · decide

/-! ## Claim C1: the object index -/

theorem assocSet_keys_mem :
    ∀ (m : List (Nat × Nat)) (k v a : Nat),
      a ∈ (assocSet m k v).map Prod.fst ↔ (a = k ∨ a ∈ m.map Prod.fst)
  | [], k, v, a => by simp [assocSet]
  | (k0, v0) :: rest, k, v, a => by
    unfold assocSet
    split
    next hk =>
      subst hk
      simp only [List.map_cons, List.mem_cons]
      tauto
    next hk =>
      simp only [List.map_cons, List.mem_cons, assocSet_keys_mem rest k v a]
      tauto

theorem assocSet_values_sub :
    ∀ (m : List (Nat × Nat)) (k v w : Nat),
      w ∈ (assocSet m k v).map Prod.snd → (w = v ∨ w ∈ m.map Prod.snd)
  | [], k, v, w => by simp [assocSet]
  | (k0, v0) :: rest, k, v, w => by
    unfold assocSet
    split
    next hk =>
      subst hk
      simp only [List.map_cons, List.mem_cons]
      tauto
    next hk =>
      simp only [List.map_cons, List.mem_cons]
      intro hmem
      rcases hmem with hmem | hmem
      · exact Or.inr (Or.inl hmem)
      · rcases assocSet_values_sub rest k v w hmem with h2 | h2
        · exact Or.inl h2
        · exact Or.inr (Or.inr h2)

theorem assocSet_keys_nodup :
    ∀ (m : List (Nat × Nat)) (k v : Nat),
      (m.map Prod.fst).Nodup → ((assocSet m k v).map Prod.fst).Nodup
  | [], k, v => by simp [assocSet]
  | (k0, v0) :: rest, k, v => by
    intro h
    simp only [List.map_cons, List.nodup_cons] at h
    obtain ⟨hk0, hrest⟩ := h
    unfold assocSet
    split
    next hk =>
      subst hk
      simp only [List.map_cons, List.nodup_cons]
      exact ⟨hk0, hrest⟩
    next hk =>
      simp only [List.map_cons, List.nodup_cons]
      refine ⟨?_, assocSet_keys_nodup rest k v hrest⟩
      intro hmem
      rcases (assocSet_keys_mem rest k v k0).mp hmem with h | h
      · exact hk h
      · exact hk0 h

theorem assocSet_values_nodup :
    ∀ (m : List (Nat × Nat)) (k v : Nat),
      (m.map Prod.snd).Nodup → v ∉ m.map Prod.snd →
      ((assocSet m k v).map Prod.snd).Nodup
  | [], k, v => by simp [assocSet]
  | (k0, v0) :: rest, k, v => by
    intro hnd hv
    simp only [List.map_cons, List.nodup_cons] at hnd
    obtain ⟨hv0, hrest⟩ := hnd
    simp only [List.map_cons, List.mem_cons, not_or] at hv
    obtain ⟨hvv0, hvrest⟩ := hv
    unfold assocSet
    split
    next hk =>
      subst hk
      simp only [List.map_cons, List.nodup_cons]
      exact ⟨hvrest, hrest⟩
    next hk =>
      simp only [List.map_cons, List.nodup_cons]
      refine ⟨?_, assocSet_values_nodup rest k v hrest hvrest⟩
      intro hmem
      rcases assocSet_values_sub rest k v v0 hmem with h | h
      · exact hvv0 h.symm
      · exact hv0 h

theorem assocErase_subl (m : List (Nat × Nat)) (k : Nat) :
    List.Sublist (assocErase m k) m :=
  List.filter_sublist _

theorem assocErase_keys_mem (m : List (Nat × Nat)) (k a : Nat) :
    a ∈ (assocErase m k).map Prod.fst ↔ (a ≠ k ∧ a ∈ m.map Prod.fst) := by
  simp only [assocErase, List.mem_map, List.mem_filter]
  constructor
  · rintro ⟨p, ⟨hpm, hpk⟩, rfl⟩
    refine ⟨by simpa using hpk, ⟨p, hpm, rfl⟩⟩
  · rintro ⟨hak, p, hpm, rfl⟩
    exact ⟨p, ⟨hpm, by simpa using hak⟩, rfl⟩

theorem assocFind_mem :
    ∀ {m : List (Nat × Nat)} {k w : Nat}, assocFind m k = some w → (k, w) ∈ m
  | [], _, _ => by intro h; cases h
  | (k0, v0) :: rest, k, w => by
    unfold assocFind
    split
    next hk =>
      subst hk
      intro h
      rw [Option.some.injEq] at h
      subst h
      exact List.mem_cons_self _ _
    next hk =>
      intro h
      exact List.mem_cons_of_mem _ (assocFind_mem h)

theorem assocFind_eq_none :
    ∀ {m : List (Nat × Nat)} {k : Nat}, assocFind m k = none → k ∉ m.map Prod.fst
  | [], _ => by intro _; simp
  | (k0, v0) :: rest, k => by
    unfold assocFind
    split
    next hk =>
      intro h
      cases h
    next hk =>
      intro h
      simp only [List.map_cons, List.mem_cons, not_or]
      exact ⟨fun he => hk he.symm, assocFind_eq_none h⟩

/-- Every Add or Remove operation preserves the object-index invariant. -/
theorem idxInv_step (s : IdxState) (op : IdxOp) (h : IdxInv s) :
    IdxInv (idxStep s op) := by
  obtain ⟨hks, hkg, hvals, hsub_s, hsub_g, hact, hbound⟩ := h
  obtain ⟨hvs, hvg, hdisj⟩ := List.nodup_append.mp hvals
  have hfresh_s : s.nextId ∉ s.spawnMap.map Prod.snd := fun hm =>
    absurd (hbound _ (hsub_s _ hm)) (lt_irrefl _)
  have hfresh_g : s.nextId ∉ s.groundMap.map Prod.snd := fun hm =>
    absurd (hbound _ (hsub_g _ hm)) (lt_irrefl _)
  have hfresh_a : s.nextId ∉ s.active := fun hm =>
    absurd (hbound _ hm) (lt_irrefl _)
  cases op with
  | addSpawn hh e c =>
    show IdxInv (if !e && !c then s else _)
    by_cases hec : (!e && !c) = true
    · rw [if_pos hec]
      exact ⟨hks, hkg, hvals, hsub_s, hsub_g, hact, hbound⟩
    · rw [if_neg hec]
      unfold IdxInv
      refine ⟨assocSet_keys_nodup _ _ _ hks, hkg, ?_, ?_, ?_, ?_, ?_⟩
      · apply List.Nodup.append (assocSet_values_nodup _ _ _ hvs hfresh_s) hvg
        intro w hw hwg
        rcases assocSet_values_sub _ _ _ _ hw with rfl | hw2
        · exact hfresh_g hwg
        · exact hdisj hw2 hwg
      · intro v hv
        rcases assocSet_values_sub _ _ _ _ hv with rfl | hv2
        · exact List.mem_cons_self _ _
        · exact List.mem_cons_of_mem _ (hsub_s _ hv2)
      · intro v hv
        exact List.mem_cons_of_mem _ (hsub_g _ hv)
      · exact List.nodup_cons.mpr ⟨hfresh_a, hact⟩
      · intro a ha
        rcases List.mem_cons.mp ha with rfl | ha2
        · exact Nat.lt_succ_self _
        · exact Nat.lt_succ_of_lt (hbound _ ha2)
  | removeSpawn hh =>
    show IdxInv (match assocFind s.spawnMap hh with
      | none => s
      | some objId =>
        { s with spawnMap := assocErase s.spawnMap hh, active := s.active.erase objId })
    cases hf : assocFind s.spawnMap hh with
    | none => exact ⟨hks, hkg, hvals, hsub_s, hsub_g, hact, hbound⟩
    | some objId =>
      have hpair : (hh, objId) ∈ s.spawnMap := assocFind_mem hf
      have hobj_v : objId ∈ s.spawnMap.map Prod.snd := List.mem_map_of_mem _ hpair
      unfold IdxInv
      refine ⟨hks.sublist ((assocErase_subl _ _).map _), hkg, ?_, ?_, ?_,
        hact.erase _, ?_⟩
      · exact hvals.sublist (((assocErase_subl _ _).map _).append_right _)
      · intro v hvmem
        obtain ⟨p, hpmem, rfl⟩ := List.mem_map.mp hvmem
        obtain ⟨hp1, hp2⟩ := List.mem_filter.mp hpmem
        have hvact : p.2 ∈ s.active := hsub_s _ (List.mem_map_of_mem _ hp1)
        have hne : p.2 ≠ objId := by
          intro he
          have hpp : p = (hh, objId) :=
            List.inj_on_of_nodup_map hvs hp1 hpair he
          have : p.1 ≠ hh := by simpa using hp2
          exact this (by rw [hpp])
        exact (List.mem_erase_of_ne hne).mpr hvact
      · intro v hvmem
        have hvact : v ∈ s.active := hsub_g _ hvmem
        have hne : v ≠ objId := fun he => hdisj hobj_v (he ▸ hvmem)
        exact (List.mem_erase_of_ne hne).mpr hvact
      · intro a ha
        exact hbound _ (List.mem_of_mem_erase ha)
  | addGround hh g =>
    show IdxInv (if !g then s else _)
    by_cases hg : (!g) = true
    · rw [if_pos hg]
      exact ⟨hks, hkg, hvals, hsub_s, hsub_g, hact, hbound⟩
    · rw [if_neg hg]
      unfold IdxInv
      refine ⟨hks, assocSet_keys_nodup _ _ _ hkg, ?_, ?_, ?_, ?_, ?_⟩
      · apply List.Nodup.append hvs (assocSet_values_nodup _ _ _ hvg hfresh_g)
        intro w hw hwg
        rcases assocSet_values_sub _ _ _ _ hwg with rfl | hw2
        · exact hfresh_s hw
        · exact hdisj hw hw2
      · intro v hv
        exact List.mem_cons_of_mem _ (hsub_s _ hv)
      · intro v hv
        rcases assocSet_values_sub _ _ _ _ hv with rfl | hv2
        · exact List.mem_cons_self _ _
        · exact List.mem_cons_of_mem _ (hsub_g _ hv2)
      · exact List.nodup_cons.mpr ⟨hfresh_a, hact⟩
      · intro a ha
        rcases List.mem_cons.mp ha with rfl | ha2
        · exact Nat.lt_succ_self _
        · exact Nat.lt_succ_of_lt (hbound _ ha2)
  | removeGround hh =>
    show IdxInv (match assocFind s.groundMap hh with
      | none => s
      | some objId =>
        { s with groundMap := assocErase s.groundMap hh, active := s.active.erase objId })
    cases hf : assocFind s.groundMap hh with
    | none => exact ⟨hks, hkg, hvals, hsub_s, hsub_g, hact, hbound⟩
    | some objId =>
      have hpair : (hh, objId) ∈ s.groundMap := assocFind_mem hf
      have hobj_v : objId ∈ s.groundMap.map Prod.snd := List.mem_map_of_mem _ hpair
      unfold IdxInv
      refine ⟨hks, hkg.sublist ((assocErase_subl _ _).map _), ?_, ?_, ?_,
        hact.erase _, ?_⟩
      · exact hvals.sublist (List.Sublist.append_left ((assocErase_subl _ _).map _) _)
      · intro v hvmem
        have hvact : v ∈ s.active := hsub_s _ hvmem
        have hne : v ≠ objId := fun he => hdisj (he ▸ hvmem) hobj_v
        exact (List.mem_erase_of_ne hne).mpr hvact
      · intro v hvmem
        obtain ⟨p, hpmem, rfl⟩ := List.mem_map.mp hvmem
        obtain ⟨hp1, hp2⟩ := List.mem_filter.mp hpmem
        have hvact : p.2 ∈ s.active := hsub_g _ (List.mem_map_of_mem _ hp1)
        have hne : p.2 ≠ objId := by
          intro he
          have hpp : p = (hh, objId) :=
            List.inj_on_of_nodup_map hvg hp1 hpair he
          have : p.1 ≠ hh := by simpa using hp2
          exact this (by rw [hpp])
        exact (List.mem_erase_of_ne hne).mpr hvact
      · intro a ha
        exact hbound _ (List.mem_of_mem_erase ha)

/-- The spawn-map key set tracks the specification-side fold step by step. -/
theorem spawnKeys_step (s : IdxState) (l : List Nat) (op : IdxOp)
    (hmatch : ∀ a, a ∈ s.spawnMap.map Prod.fst ↔ a ∈ l) (a : Nat) :
    a ∈ (idxStep s op).spawnMap.map Prod.fst ↔ a ∈ specSpawnStep l op := by
  cases op with
  | addSpawn h e c =>
    have hadd : a ∈ (assocSet s.spawnMap h s.nextId).map Prod.fst ↔
        a ∈ (if h ∈ l then l else h :: l) := by
      rw [assocSet_keys_mem]
      by_cases hm : h ∈ l
      · rw [if_pos hm]
        constructor
        · intro hor
          rcases hor with rfl | hor
          · exact hm
          · exact (hmatch a).mp hor
        · intro hl
          exact Or.inr ((hmatch a).mpr hl)
      · rw [if_neg hm]
        rw [List.mem_cons]
        constructor
        · intro hor
          rcases hor with rfl | hor
          · exact Or.inl rfl
          · exact Or.inr ((hmatch a).mp hor)
        · intro hor
          rcases hor with rfl | hor
          · exact Or.inl rfl
          · exact Or.inr ((hmatch a).mpr hor)
    cases e <;> cases c
    · exact hmatch a
    · exact hadd
    · exact hadd
    · exact hadd
  | removeSpawn h =>
    show a ∈ (match assocFind s.spawnMap h with
      | none => s
      | some objId =>
        { s with spawnMap := assocErase s.spawnMap h,
                 active := s.active.erase objId }).spawnMap.map Prod.fst ↔
      a ∈ l.filter (fun b => b != h)
    cases hf : assocFind s.spawnMap h with
    | none =>
      have hnot : h ∉ s.spawnMap.map Prod.fst := assocFind_eq_none hf
      constructor
      · intro ha
        refine List.mem_filter.mpr ⟨(hmatch a).mp ha, ?_⟩
        have hne : a ≠ h := fun he => hnot (he ▸ ha)
        simpa using hne
      · intro ha
        exact (hmatch a).mpr (List.mem_filter.mp ha).1
    | some objId =>
      rw [assocErase_keys_mem]
      constructor
      · intro ⟨hne, ha⟩
        exact List.mem_filter.mpr ⟨(hmatch a).mp ha, by simpa using hne⟩
      · intro ha
        obtain ⟨hal, hne⟩ := List.mem_filter.mp ha
        exact ⟨by simpa using hne, (hmatch a).mpr hal⟩
  | addGround h g =>
    cases g
    · exact hmatch a
    · exact hmatch a
  | removeGround h =>
    show a ∈ (match assocFind s.groundMap h with
      | none => s
      | some objId =>
        { s with groundMap := assocErase s.groundMap h,
                 active := s.active.erase objId }).spawnMap.map Prod.fst ↔ a ∈ l
    cases assocFind s.groundMap h with
    | none => exact hmatch a
    | some objId => exact hmatch a

/-- The ground-map key set tracks the specification-side fold step by step. -/
theorem groundKeys_step (s : IdxState) (l : List Nat) (op : IdxOp)
    (hmatch : ∀ a, a ∈ s.groundMap.map Prod.fst ↔ a ∈ l) (a : Nat) :
    a ∈ (idxStep s op).groundMap.map Prod.fst ↔ a ∈ specGroundStep l op := by
  cases op with
  | addGround h g =>
    have hadd : a ∈ (assocSet s.groundMap h s.nextId).map Prod.fst ↔
        a ∈ (if h ∈ l then l else h :: l) := by
      rw [assocSet_keys_mem]
      by_cases hm : h ∈ l
      · rw [if_pos hm]
        constructor
        · intro hor
          rcases hor with rfl | hor
          · exact hm
          · exact (hmatch a).mp hor
        · intro hl
          exact Or.inr ((hmatch a).mpr hl)
      · rw [if_neg hm]
        rw [List.mem_cons]
        constructor
        · intro hor
          rcases hor with rfl | hor
          · exact Or.inl rfl
          · exact Or.inr ((hmatch a).mp hor)
        · intro hor
          rcases hor with rfl | hor
          · exact Or.inl rfl
          · exact Or.inr ((hmatch a).mpr hor)
    cases g
    · exact hmatch a
    · exact hadd
  | removeGround h =>
    show a ∈ (match assocFind s.groundMap h with
      | none => s
      | some objId =>
        { s with groundMap := assocErase s.groundMap h,
                 active := s.active.erase objId }).groundMap.map Prod.fst ↔
      a ∈ l.filter (fun b => b != h)
    cases hf : assocFind s.groundMap h with
    | none =>
      have hnot : h ∉ s.groundMap.map Prod.fst := assocFind_eq_none hf
      constructor
      · intro ha
        refine List.mem_filter.mpr ⟨(hmatch a).mp ha, ?_⟩
        have hne : a ≠ h := fun he => hnot (he ▸ ha)
        simpa using hne
      · intro ha
        exact (hmatch a).mpr (List.mem_filter.mp ha).1
    | some objId =>
      rw [assocErase_keys_mem]
      constructor
      · intro ⟨hne, ha⟩
        exact List.mem_filter.mpr ⟨(hmatch a).mp ha, by simpa using hne⟩
      · intro ha
        obtain ⟨hal, hne⟩ := List.mem_filter.mp ha
        exact ⟨by simpa using hne, (hmatch a).mpr hal⟩
  | addSpawn h e c =>
    cases e <;> cases c
    · exact hmatch a
    · exact hmatch a
    · exact hmatch a
    · exact hmatch a
  | removeSpawn h =>
    show a ∈ (match assocFind s.spawnMap h with
      | none => s
      | some objId =>
        { s with spawnMap := assocErase s.spawnMap h,
                 active := s.active.erase objId }).groundMap.map Prod.fst ↔ a ∈ l
    cases assocFind s.spawnMap h with
    | none => exact hmatch a
    | some objId => exact hmatch a

/-- Run-level combination: invariant plus spec correspondence, by induction
over the operation sequence. -/
theorem idxRun_aux :
    ∀ (ops : List IdxOp) (s : IdxState) (ls lg : List Nat),
      IdxInv s →
      (∀ a, a ∈ s.spawnMap.map Prod.fst ↔ a ∈ ls) →
      (∀ a, a ∈ s.groundMap.map Prod.fst ↔ a ∈ lg) →
      IdxInv (ops.foldl idxStep s) ∧
      (∀ a, a ∈ (ops.foldl idxStep s).spawnMap.map Prod.fst ↔
        a ∈ ops.foldl specSpawnStep ls) ∧
      (∀ a, a ∈ (ops.foldl idxStep s).groundMap.map Prod.fst ↔
        a ∈ ops.foldl specGroundStep lg)
  | [], _, _, _ => fun h1 h2 h3 => ⟨h1, h2, h3⟩
  | op :: rest, s, ls, lg => fun h1 h2 h3 =>
    idxRun_aux rest (idxStep s op) (specSpawnStep ls op) (specGroundStep lg op)
      (idxInv_step s op h1) (spawnKeys_step s ls op h2) (groundKeys_step s lg op h3)

/-- Claim C1: for every sequence of Add/Remove operations on spawn and
ground-item handles (including re-adding an already indexed handle), each
dedupe map holds at most one entry per handle; after the sequence the maps
contain exactly the handles whose creating add was not followed by a
remove; and the mapped objects are pairwise distinct (within and across
the two maps) and all live on the active object list.  Because the ops
list is arbitrary, instantiating the theorem at every prefix gives the
at-any-time reading. -/
theorem C1_object_index_dedupe (ops : List IdxOp) :
    ((runIdx ops).spawnMap.map Prod.fst).Nodup ∧
    ((runIdx ops).groundMap.map Prod.fst).Nodup ∧
    (∀ a, a ∈ (runIdx ops).spawnMap.map Prod.fst ↔ a ∈ specSpawnKeys ops) ∧
    (∀ a, a ∈ (runIdx ops).groundMap.map Prod.fst ↔ a ∈ specGroundKeys ops) ∧
    ((runIdx ops).spawnMap.map Prod.snd ++ (runIdx ops).groundMap.map Prod.snd).Nodup ∧
    (∀ v ∈ (runIdx ops).spawnMap.map Prod.snd, v ∈ (runIdx ops).active) ∧
    (∀ v ∈ (runIdx ops).groundMap.map Prod.snd, v ∈ (runIdx ops).active) := by
  have hinit : IdxInv idxInit := by
    unfold IdxInv idxInit
    simp
  obtain ⟨h1, h2, h3⟩ :=
    idxRun_aux ops idxInit [] [] hinit (by simp [idxInit]) (by simp [idxInit])
  obtain ⟨hks, hkg, hvals, hsubs, hsubg, _, _⟩ := h1
  exact ⟨hks, hkg, h2, h3, hvals, hsubs, hsubg⟩

/-- Witness for claim C1 at the concrete sequence c1Ops: after add 5,
add 5 again, add ground 9, remove 5, the spawn keys are duplicate-free and
handle 5 is no longer indexed while ground handle 9 is. -/
theorem C1_object_index_dedupe_witness :
    ((runIdx c1Ops).spawnMap.map Prod.fst).Nodup ∧
    (5 ∈ (runIdx c1Ops).spawnMap.map Prod.fst ↔ 5 ∈ specSpawnKeys c1Ops) ∧
    (9 ∈ (runIdx c1Ops).groundMap.map Prod.fst ↔ 9 ∈ specGroundKeys c1Ops) :=
  ⟨(C1_object_index_dedupe c1Ops).1,
   (C1_object_index_dedupe c1Ops).2.2.1 5,
   (C1_object_index_dedupe c1Ops).2.2.2.1 9⟩

end Rof2Map
